import Mathlib

/-!
Verification of the clock-startup sequencer of an STM32F107 example project.

The source under scrutiny is the startup module containing `flash_latency`
and `pll_start` (a grid search over PLL divider/multiplier parameters in
C `uint32_t` arithmetic, followed by an ordered sequence of register writes
and hardware-flag polls).  All machine integers are modelled as `Nat` with
explicit truncation modulo `2^32` where C unsigned overflow can occur.
-/

/-- Truncation of C `uint32_t` arithmetic results: reduction modulo `2^32`. -/
def u32 (n : Nat) : Nat := n % 4294967296

/-- C `uint32_t` subtraction `a - b`, which wraps modulo `2^32`
(meaningful for `b ≤ 2^32`, the only way it is used here). -/
def sub32 (a b : Nat) : Nat := (a + 4294967296 - b) % 4294967296

/-! ### Register-field constants

The values below come from the repository's `hdr_rcc.h`
(`RCC_CFGR_..._bit` / `..._value` / `..._mask` macros).  The composite
CMSIS names used by `pll_start` (`RCC_CFGR_PLLSRC`, `RCC_CFGR_PPRE1_DIV2`,
`RCC_CFGR_SW_PLL`, `RCC_CFGR_SWS`, `RCC_CFGR_SWS_PLL`,
`RCC_CFGR2_PREDIV1SRC`) live in the vendor header `stm32f10x.h`; their
values are fixed by the bit positions and field values that `hdr_rcc.h`
itself declares (`value <<< bit`, `mask <<< bit`). -/

/-- `hdr_rcc.h`: `RCC_CFGR2_PLL2MUL20_value` = 15 (reserved encoding for x20). -/
def RCC_CFGR2_PLL2MUL20_value : Nat := 15

/-- `hdr_rcc.h`: `RCC_CFGR_PLLMUL6_5_value` = 13 (reserved encoding for x6.5). -/
def RCC_CFGR_PLLMUL6_5_value : Nat := 13

/-- `hdr_rcc.h`: `RCC_CFGR2_PLL2MUL_bit` = 8. -/
def RCC_CFGR2_PLL2MUL_bit : Nat := 8

/-- `hdr_rcc.h`: `RCC_CFGR2_PREDIV2_bit` = 4. -/
def RCC_CFGR2_PREDIV2_bit : Nat := 4

/-- `hdr_rcc.h`: `RCC_CFGR2_PREDIV1_bit` = 0. -/
def RCC_CFGR2_PREDIV1_bit : Nat := 0

/-- `hdr_rcc.h`: `RCC_CFGR_PLLMUL_bit` = 18. -/
def RCC_CFGR_PLLMUL_bit : Nat := 18

/-- CMSIS `RCC_CFGR2_PREDIV1SRC` = `1 <<< RCC_CFGR2_PREDIV1SRC_bit` with bit 16. -/
def RCC_CFGR2_PREDIV1SRC : Nat := 1 <<< 16

/-- CMSIS `RCC_CFGR_PLLSRC` = `1 <<< RCC_CFGR_PLLSRC_bit` with bit 16. -/
def RCC_CFGR_PLLSRC : Nat := 1 <<< 16

/-- CMSIS `RCC_CFGR_PPRE1_DIV2` = `RCC_CFGR_PPRE1_DIV2_value (4) <<< RCC_CFGR_PPRE1_bit (8)`. -/
def RCC_CFGR_PPRE1_DIV2 : Nat := 4 <<< 8

/-- CMSIS `RCC_CFGR_SW_PLL` = `RCC_CFGR_SW_PLL_value (2) <<< RCC_CFGR_SW_bit (0)`:
requested system-clock-source field set to PLL. -/
def RCC_CFGR_SW_PLL : Nat := 2 <<< 0

/-- CMSIS `RCC_CFGR_SW` = `RCC_CFGR_SW_mask (3) <<< RCC_CFGR_SW_bit (0)`:
mask of the switch-requested field (bits 0-1). -/
def RCC_CFGR_SW : Nat := 3 <<< 0

/-- CMSIS `RCC_CFGR_SWS` = `RCC_CFGR_SWS_mask (3) <<< RCC_CFGR_SWS_bit (2)`:
mask of the switch-confirmed status field (bits 2-3). -/
def RCC_CFGR_SWS : Nat := 3 <<< 2

/-- CMSIS `RCC_CFGR_SWS_PLL` = `RCC_CFGR_SWS_PLL_value (2) <<< RCC_CFGR_SWS_bit (2)`. -/
def RCC_CFGR_SWS_PLL : Nat := 2 <<< 2

/-! ### `flash_latency` -/

/-- The wait-state count computed by `flash_latency` (source lines 783-795):
`0` below 24 MHz, `1` below 48 MHz, otherwise `2`.  The function then
performs `FLASH->ACR |= wait_states`. -/
def flashWaitStates (frequency : Nat) : Nat :=
  if frequency < 24000000 then 0
  else if frequency < 48000000 then 1
  else 2

/-! ### The `pll_start` parameter search (source lines 813-854) -/

/-- The five `best_*` accumulators of `pll_start`
(`best_frequency`, `best_div2`, `best_mul2`, `best_div1`, `best_mul1`),
all starting at 0 (source line 816). -/
structure PllState where
  best_frequency : Nat
  best_div2 : Nat
  best_mul2 : Nat
  best_div1 : Nat
  best_mul1 : Nat
deriving DecidableEq

/-- `for (div2 = 1; div2 <= 16; div2++)`: PREDIV2 in [1; 16]. -/
def div2List : List Nat := List.range' 1 16

/-- `for (mul2 = 8; mul2 <= 20; mul2++)`: candidate PLL2MUL loop values
(the invalid values 15, 17, 18, 19 are skipped inside the loop body). -/
def mul2List : List Nat := List.range' 8 13

/-- `for (div1 = 1; div1 <= 16; div1++)`: PREDIV1 in [1; 16]. -/
def div1List : List Nat := List.range' 1 16

/-- `for (mul1 = 4; mul1 <= 10; mul1++)`: PLL1MUL loop values, where the
loop value 10 is the sentinel meaning the x6.5 multiplier. -/
def mul1List : List Nat := List.range' 4 7

/-- PLL1 output frequency computed by `pll_start` (source lines 836-839):
`pll2_frequency / div1 * mul1` for a normal multiplier, and
`pll2_frequency / div1 * 13 / 2` for the 6.5 sentinel (`mul1 == 10`),
in `uint32_t` arithmetic. -/
def pll1Of (pll2 div1 mul1 : Nat) : Nat :=
  if mul1 ≠ 10 then u32 (pll2 / div1 * mul1)
  else u32 (pll2 / div1 * 13) / 2

/-- The exhaustive parameter search of `pll_start` (source lines 815-854):
nested loops over `div2`, `mul2`, `div1`, `mul1`, skipping invalid `mul2`
encodings, rejecting PLL2 outputs outside [18 MHz; 72 MHz] and PLL1 outputs
below 18 MHz or above the requested `frequency`, and recording a candidate
exactly when its PLL1 output strictly exceeds the best one seen so far. -/
def pllSearch (crystal frequency : Nat) : PllState :=
  div2List.foldl (fun s div2 =>
    mul2List.foldl (fun s mul2 =>
      if mul2 = 15 ∨ mul2 = 17 ∨ mul2 = 18 ∨ mul2 = 19 then s
      else
        let pll2_frequency := u32 (crystal / div2 * mul2)
        if pll2_frequency < 18000000 ∨ 72000000 < pll2_frequency then s
        else
          div1List.foldl (fun s div1 =>
            mul1List.foldl (fun s mul1 =>
              let pll1_frequency := pll1Of pll2_frequency div1 mul1
              if pll1_frequency < 18000000 ∨ frequency < pll1_frequency then s
              else if s.best_frequency < pll1_frequency then
                ⟨pll1_frequency, div2, mul2, div1, mul1⟩
              else s) s) s) s)
    ⟨0, 0, 0, 0, 0⟩

/-- The value returned by `pll_start` (source line 888): the final
`best_frequency` accumulator. -/
def pll_start_frequency (crystal frequency : Nat) : Nat :=
  (pllSearch crystal frequency).best_frequency

/-! ### Encoding of the selected parameters (source lines 856-878) -/

/-- Encoding of `best_mul2` (source lines 856-859): the special value 20
maps to `RCC_CFGR2_PLL2MUL20_value`, otherwise `best_mul2 -= 2`
(`uint32_t` subtraction). -/
def encodePll2Mul (m : Nat) : Nat :=
  if m = 20 then RCC_CFGR2_PLL2MUL20_value else sub32 m 2

/-- Encoding of `best_div2` and `best_div1` (source lines 861-862):
`value -= 1` (`uint32_t` subtraction). -/
def encodePrediv (d : Nat) : Nat := sub32 d 1

/-- Encoding of `best_mul1` (source lines 872-875): the 6.5 sentinel 10
maps to `RCC_CFGR_PLLMUL6_5_value`, otherwise `best_mul1 -= 2`
(`uint32_t` subtraction). -/
def encodePllMul (m : Nat) : Nat :=
  if m = 10 then RCC_CFGR_PLLMUL6_5_value else sub32 m 2

/-- The OR-mask written by `RCC->CFGR2 |= ...` (source lines 865-866):
PREDIV1 source select plus the encoded PLL2MUL, PREDIV2 and PREDIV1 fields
(each shift performed in `uint32_t`, hence truncated). -/
def cfgr2OrMask (s : PllState) : Nat :=
  RCC_CFGR2_PREDIV1SRC |||
    u32 (encodePll2Mul s.best_mul2 <<< RCC_CFGR2_PLL2MUL_bit) |||
    u32 (encodePrediv s.best_div2 <<< RCC_CFGR2_PREDIV2_bit) |||
    u32 (encodePrediv s.best_div1 <<< RCC_CFGR2_PREDIV1_bit)

/-- The OR-mask written by `RCC->CFGR |= ...` (source line 878): the encoded
PLL1MUL field plus the PLL source select and the APB1 prescaler /2. -/
def cfgrOrMask (s : PllState) : Nat :=
  u32 (encodePllMul s.best_mul1 <<< RCC_CFGR_PLLMUL_bit) |||
    RCC_CFGR_PLLSRC ||| RCC_CFGR_PPRE1_DIV2

/-! ### The switch sequencer as an event trace (source lines 818-888) -/

/-- Observable hardware interactions of `pll_start`, in program order:
single-bit enables, `|=` writes to registers (the event carries the OR-mask,
i.e. the right-hand side the program contributes), and blocking polls.
`waitCFGRField mask value` is the poll
`while ((RCC->CFGR & mask) != value)`. -/
inductive ClockEvent where
  | setHSEON : ClockEvent
  | writeACR : Nat → ClockEvent
  | orCFGR2 : Nat → ClockEvent
  | waitHSERDY : ClockEvent
  | setPLL2ON : ClockEvent
  | orCFGR : Nat → ClockEvent
  | waitPLL2RDY : ClockEvent
  | setPLLON : ClockEvent
  | waitPLLRDY : ClockEvent
  | waitCFGRField : Nat → Nat → ClockEvent
deriving DecidableEq

/-- The straight-line trace of hardware interactions performed by
`pll_start` (source lines 818-888), in source order:
HSE enable (818), flash-latency write (819), `CFGR2 |=` (865),
HSERDY poll (868), PLL2 enable (870), `CFGR |=` with PLL1MUL/PLLSRC/PPRE1
(878), PLL2RDY poll (880), PLL enable (882), PLLRDY poll (883),
`CFGR |= RCC_CFGR_SW_PLL` switch request (885), and the poll of the
switch-confirmed `SWS` field (886). -/
def pllStartTrace (crystal frequency : Nat) : List ClockEvent :=
  [ ClockEvent.setHSEON,
    ClockEvent.writeACR (flashWaitStates frequency),
    ClockEvent.orCFGR2 (cfgr2OrMask (pllSearch crystal frequency)),
    ClockEvent.waitHSERDY,
    ClockEvent.setPLL2ON,
    ClockEvent.orCFGR (cfgrOrMask (pllSearch crystal frequency)),
    ClockEvent.waitPLL2RDY,
    ClockEvent.setPLLON,
    ClockEvent.waitPLLRDY,
    ClockEvent.orCFGR RCC_CFGR_SW_PLL,
    ClockEvent.waitCFGRField RCC_CFGR_SWS RCC_CFGR_SWS_PLL ]

/-! ### Flattened view of the search used for the analysis -/

/-- One candidate parameter tuple of the search. -/
structure Combo where
  d2 : Nat
  m2 : Nat
  d1 : Nat
  m1 : Nat
deriving DecidableEq

/-- All loop iterations of the search, flattened in exact loop order:
`div2` ascending, then `mul2` ascending, then `div1` ascending, then
`mul1` ascending (including the `mul2` values skipped by the loop body). -/
def combos : List Combo :=
  div2List.flatMap fun d2 =>
    mul2List.flatMap fun m2 =>
      div1List.flatMap fun d1 =>
        mul1List.map fun m1 => ⟨d2, m2, d1, m1⟩

/-- PLL2 output frequency of a tuple, as the code computes it
(`crystal / div2 * mul2` in `uint32_t`). -/
def pll2Of (crystal : Nat) (q : Combo) : Nat := u32 (crystal / q.d2 * q.m2)

/-- PLL1 output frequency of a tuple, as the code computes it. -/
def pll1C (crystal : Nat) (q : Combo) : Nat := pll1Of (pll2Of crystal q) q.d1 q.m1

/-- A tuple passes all the filters of the search body: a valid `mul2`
encoding, PLL2 output within [18 MHz; 72 MHz] and PLL1 output at least
18 MHz and at most the requested frequency. -/
def accepts (crystal frequency : Nat) (q : Combo) : Prop :=
  ¬(q.m2 = 15 ∨ q.m2 = 17 ∨ q.m2 = 18 ∨ q.m2 = 19) ∧
  18000000 ≤ pll2Of crystal q ∧ pll2Of crystal q ≤ 72000000 ∧
  18000000 ≤ pll1C crystal q ∧ pll1C crystal q ≤ frequency

instance (crystal frequency : Nat) (q : Combo) :
    Decidable (accepts crystal frequency q) := by
  unfold accepts; infer_instance

/-- The state the search records for an accepted tuple. -/
def record (crystal : Nat) (q : Combo) : PllState :=
  ⟨pll1C crystal q, q.d2, q.m2, q.d1, q.m1⟩

/-- One iteration of the flattened search. -/
def flatStep (crystal frequency : Nat) (s : PllState) (q : Combo) : PllState :=
  if accepts crystal frequency q ∧ s.best_frequency < pll1C crystal q then
    record crystal q
  else s

/-- The flattened search: fold of `flatStep` over all tuples in loop order. -/
def pllSearchFlat (crystal frequency : Nat) : PllState :=
  combos.foldl (flatStep crystal frequency) ⟨0, 0, 0, 0, 0⟩

/-! ### Reference (specification-side) definitions for the result guarantee -/

/-- Exact (non-wrapping) PLL2 output `crystalHz / div2 * mul2` of the
specification's reference formula. -/
def pll2Exact (crystal : Nat) (q : Combo) : Nat := crystal / q.d2 * q.m2

/-- Exact (non-wrapping) PLL1 output of the specification's reference
formula: `pll2 / div1 * mul1`, the 6.5 sentinel case as
`pll2 / div1 * 13 / 2`. -/
def pll1Exact (crystal : Nat) (q : Combo) : Nat :=
  if q.m1 ≠ 10 then pll2Exact crystal q / q.d1 * q.m1
  else pll2Exact crystal q / q.d1 * 13 / 2

/-- Modelled from the specification's words (result guarantee, section 4.1):
a tuple with `div2` in [1,16], `mul2` in the valid multiplier set, `div1` in
[1,16], `mul1` a loop value in [4,10] (10 = the 6.5 sentinel), whose exact
PLL2 output lies within [18 MHz, 72 MHz] and whose exact PLL1 output lies
within (18 MHz, targetHz]. -/
def feasibleSpec (crystal frequency : Nat) (q : Combo) : Prop :=
  1 ≤ q.d2 ∧ q.d2 ≤ 16 ∧
  q.m2 ∈ ([8, 9, 10, 11, 12, 13, 14, 16, 20] : List Nat) ∧
  1 ≤ q.d1 ∧ q.d1 ≤ 16 ∧
  q.m1 ∈ ([4, 5, 6, 7, 8, 9, 10] : List Nat) ∧
  18000000 ≤ pll2Exact crystal q ∧ pll2Exact crystal q ≤ 72000000 ∧
  18000000 < pll1Exact crystal q ∧ pll1Exact crystal q ≤ frequency

instance (crystal frequency : Nat) (q : Combo) :
    Decidable (feasibleSpec crystal frequency q) := by
  unfold feasibleSpec; infer_instance

/-- Independent brute-force reference maximum: the largest exact PLL1
output over all feasible tuples (0 when none is feasible). -/
def bestExact (crystal frequency : Nat) : Nat :=
  ((combos.filter fun q => decide (feasibleSpec crystal frequency q)).map
    (pll1Exact crystal)).foldl max 0

/-! ### Orders and temporal predicates used by the claims -/

/-- Strict lexicographic order on tuples in loop order:
`div2`, then `mul2`, then `div1`, then `mul1` (loop values). -/
def lexLT (a b : Combo) : Prop :=
  a.d2 < b.d2 ∨ (a.d2 = b.d2 ∧ (a.m2 < b.m2 ∨ (a.m2 = b.m2 ∧
    (a.d1 < b.d1 ∨ (a.d1 = b.d1 ∧ a.m1 < b.m1)))))

/-- Reflexive closure of `lexLT`. -/
def lexLE (a b : Combo) : Prop := lexLT a b ∨ a = b

/-- Every occurrence of `trigger` in the trace is preceded by an
occurrence of `guard`. -/
def precededBy (t : List ClockEvent) (guard trigger : ClockEvent) : Prop :=
  ∀ j, t.get? j = some trigger → ∃ i, i < j ∧ t.get? i = some guard

/-- An event is one of the three clock-enable bit writes
(HSEON, PLL2ON, PLLON). -/
def isClockEnable : ClockEvent → Prop
  | ClockEvent.setHSEON => True
  | ClockEvent.setPLL2ON => True
  | ClockEvent.setPLLON => True
  | _ => False

/-- An event is the flash wait-state write performed by `flash_latency`. -/
def isFlashWrite : ClockEvent → Prop
  | ClockEvent.writeACR _ => True
  | _ => False

/-- The ordering property claimed for the flash-latency write: every
clock-enable event is preceded by a flash wait-state write. -/
def flashBeforeEnables (t : List ClockEvent) : Prop :=
  ∀ j e, t.get? j = some e → isClockEnable e →
    ∃ i e', i < j ∧ t.get? i = some e' ∧ isFlashWrite e'

/-! ### Generic fold helpers -/

theorem foldl_fix {α β : Type} {f : α → β → α} {l : List β} {a : α}
    (h : ∀ a' b, b ∈ l → f a' b = a') : l.foldl f a = a := by
  induction l generalizing a with
  | nil => rfl
  | cons x t ih =>
      rw [List.foldl_cons, h a x (List.mem_cons_self x t)]
      exact ih fun a' b hb => h a' b (List.mem_cons_of_mem x hb)

theorem foldl_congr_mem {α β : Type} {f g : α → β → α} {l : List β} {a : α}
    (h : ∀ a' b, b ∈ l → f a' b = g a' b) : l.foldl f a = l.foldl g a := by
  induction l generalizing a with
  | nil => rfl
  | cons x t ih =>
      rw [List.foldl_cons, List.foldl_cons, h a x (List.mem_cons_self x t)]
      exact ih fun a' b hb => h a' b (List.mem_cons_of_mem x hb)

theorem foldl_flatMap_eq {α β γ : Type} (F : α → β → α) (l : List γ) (g : γ → List β)
    (i : α) : (l.flatMap g).foldl F i = l.foldl (fun s a => (g a).foldl F s) i := by
  rw [List.flatMap, List.foldl_flatten, List.foldl_map]

theorem le_foldl_max_init {l : List Nat} {init : Nat} : init ≤ l.foldl max init := by
  induction l generalizing init with
  | nil => exact Nat.le_refl _
  | cons x t ih => exact le_trans (Nat.le_max_left init x) ih

theorem le_foldl_max_of_mem {l : List Nat} {a init : Nat} (h : a ∈ l) :
    a ≤ l.foldl max init := by
  induction l generalizing init with
  | nil => cases h
  | cons x t ih =>
      rcases List.mem_cons.mp h with rfl | h'
      · exact le_trans (Nat.le_max_right init a) le_foldl_max_init
      · exact ih h'

theorem foldl_max_le {l : List Nat} {b init : Nat} (h : ∀ a ∈ l, a ≤ b)
    (h0 : init ≤ b) : l.foldl max init ≤ b := by
  induction l generalizing init with
  | nil => exact h0
  | cons x t ih =>
      rw [List.foldl_cons]
      exact ih (fun a ha => h a (List.mem_cons_of_mem x ha))
        (Nat.max_le.mpr ⟨h0, h x (List.mem_cons_self x t)⟩)


/-! ### Equivalence of the nested search with the flattened fold -/

theorem flat_unfold (crystal frequency : Nat) (i : PllState) :
    combos.foldl (flatStep crystal frequency) i =
      div2List.foldl (fun s d2 =>
        mul2List.foldl (fun s m2 =>
          div1List.foldl (fun s d1 =>
            mul1List.foldl (fun s m1 => flatStep crystal frequency s ⟨d2, m2, d1, m1⟩) s)
            s) s) i := by
  unfold combos
  rw [foldl_flatMap_eq]
  apply foldl_congr_mem
  intro a d2 _
  rw [foldl_flatMap_eq]
  apply foldl_congr_mem
  intro a' m2 _
  rw [foldl_flatMap_eq]
  apply foldl_congr_mem
  intro a'' d1 _
  rw [List.foldl_map]

theorem body_eq (crystal frequency d2 m2 : Nat) (s : PllState) :
    (if m2 = 15 ∨ m2 = 17 ∨ m2 = 18 ∨ m2 = 19 then s
     else
       let pll2_frequency := u32 (crystal / d2 * m2)
       if pll2_frequency < 18000000 ∨ 72000000 < pll2_frequency then s
       else
         div1List.foldl (fun s div1 =>
           mul1List.foldl (fun s mul1 =>
             let pll1_frequency := pll1Of pll2_frequency div1 mul1
             if pll1_frequency < 18000000 ∨ frequency < pll1_frequency then s
             else if s.best_frequency < pll1_frequency then
               ⟨pll1_frequency, d2, m2, div1, mul1⟩
             else s) s) s) =
    div1List.foldl (fun s d1 =>
      mul1List.foldl (fun s m1 => flatStep crystal frequency s ⟨d2, m2, d1, m1⟩) s) s := by
  by_cases hbad : m2 = 15 ∨ m2 = 17 ∨ m2 = 18 ∨ m2 = 19
  · rw [if_pos hbad]
    symm
    apply foldl_fix
    intro a d1 _
    apply foldl_fix
    intro a' m1 _
    unfold flatStep
    rw [if_neg]
    rintro ⟨⟨hn, _⟩, _⟩
    exact hn hbad
  · rw [if_neg hbad]
    show (if u32 (crystal / d2 * m2) < 18000000 ∨ 72000000 < u32 (crystal / d2 * m2)
          then s else _) = _
    by_cases hr : u32 (crystal / d2 * m2) < 18000000 ∨ 72000000 < u32 (crystal / d2 * m2)
    · rw [if_pos hr]
      symm
      apply foldl_fix
      intro a d1 _
      apply foldl_fix
      intro a' m1 _
      unfold flatStep
      rw [if_neg]
      rintro ⟨⟨_, h2, h3, _⟩, _⟩
      unfold pll2Of at h2 h3
      dsimp only at h2 h3
      rcases hr with h | h <;> omega
    · rw [if_neg hr]
      apply foldl_congr_mem
      intro a d1 _
      apply foldl_congr_mem
      intro a' m1 _
      show _ = flatStep crystal frequency a' ⟨d2, m2, d1, m1⟩
      unfold flatStep accepts record pll1C pll2Of
      dsimp only
      by_cases h1 : pll1Of (u32 (crystal / d2 * m2)) d1 m1 < 18000000 ∨
          frequency < pll1Of (u32 (crystal / d2 * m2)) d1 m1
      · rw [if_pos h1, if_neg]
        rintro ⟨⟨_, _, _, h4, h5⟩, _⟩
        rcases h1 with h | h <;> omega
      · rw [if_neg h1]
        by_cases h2 : a'.best_frequency < pll1Of (u32 (crystal / d2 * m2)) d1 m1
        · rw [if_pos h2, if_pos]
          exact ⟨⟨hbad, by omega, by omega, by omega, by omega⟩, h2⟩
        · rw [if_neg h2, if_neg]
          rintro ⟨_, hlt⟩
          exact h2 hlt

theorem pllSearch_eq_flat (crystal frequency : Nat) :
    pllSearch crystal frequency = pllSearchFlat crystal frequency := by
  unfold pllSearchFlat
  rw [flat_unfold]
  unfold pllSearch
  apply foldl_congr_mem
  intro s d2 _
  apply foldl_congr_mem
  intro s' m2 _
  exact body_eq crystal frequency d2 m2 s'

/-! ### Characterisation of the flattened fold -/

theorem accepts_lower {crystal frequency : Nat} {q : Combo}
    (h : accepts crystal frequency q) : 18000000 ≤ pll1C crystal q := h.2.2.2.1

theorem accepts_upper {crystal frequency : Nat} {q : Combo}
    (h : accepts crystal frequency q) : pll1C crystal q ≤ frequency := h.2.2.2.2

/-- Invariant of the search fold: either nothing so far was accepted and the
state is still all-zero, or the state records the first accepted tuple
achieving the maximum PLL1 frequency seen so far. -/
def searchInv (crystal frequency : Nat) (L : List Combo) (s : PllState) : Prop :=
  ((∀ q ∈ L, ¬ accepts crystal frequency q) ∧ s = ⟨0, 0, 0, 0, 0⟩) ∨
  (∃ L₁ q₀ L₂, L = L₁ ++ q₀ :: L₂ ∧ accepts crystal frequency q₀ ∧
    s = record crystal q₀ ∧
    (∀ q ∈ L₁, accepts crystal frequency q → pll1C crystal q < pll1C crystal q₀) ∧
    (∀ q ∈ L, accepts crystal frequency q → pll1C crystal q ≤ pll1C crystal q₀))

theorem search_inv (crystal frequency : Nat) (L : List Combo) :
    searchInv crystal frequency L
      (L.foldl (flatStep crystal frequency) ⟨0, 0, 0, 0, 0⟩) := by
  induction L using List.reverseRecOn with
  | nil => exact Or.inl ⟨by simp, rfl⟩
  | append_singleton L x ih =>
      rw [List.foldl_append, List.foldl_cons, List.foldl_nil]
      set s := L.foldl (flatStep crystal frequency) ⟨0, 0, 0, 0, 0⟩ with hs
      rcases ih with ⟨hnone, hzero⟩ | ⟨L₁, q₀, L₂, hL, hacc₀, hrec, hstrict, hmax⟩
      · by_cases hx : accepts crystal frequency x
        · have hupd : flatStep crystal frequency s x = record crystal x := by
            unfold flatStep
            rw [if_pos ⟨hx, by
              rw [hzero]; exact lt_of_lt_of_le (by norm_num) (accepts_lower hx)⟩]
          rw [hupd]
          refine Or.inr ⟨L, x, [], by simp, hx, rfl, ?_, ?_⟩
          · exact fun q hq hacc => absurd hacc (hnone q hq)
          · intro q hq hacc
            rcases List.mem_append.mp hq with h | h
            · exact absurd hacc (hnone q h)
            · rw [List.mem_singleton.mp h]
        · have hkeep : flatStep crystal frequency s x = s := by
            unfold flatStep
            rw [if_neg]
            rintro ⟨h1, _⟩
            exact hx h1
          rw [hkeep]
          refine Or.inl ⟨?_, hzero⟩
          intro q hq
          rcases List.mem_append.mp hq with h | h
          · exact hnone q h
          · rw [List.mem_singleton.mp h]; exact hx
      · have hbestval : s.best_frequency = pll1C crystal q₀ := by rw [hrec]; rfl
        by_cases hx : accepts crystal frequency x ∧ s.best_frequency < pll1C crystal x
        · have hupd : flatStep crystal frequency s x = record crystal x := by
            unfold flatStep; rw [if_pos hx]
          rw [hupd]
          refine Or.inr ⟨L, x, [], by simp, hx.1, rfl, ?_, ?_⟩
          · intro q hq hacc
            exact lt_of_le_of_lt (hmax q hq hacc) (hbestval ▸ hx.2)
          · intro q hq hacc
            rcases List.mem_append.mp hq with h | h
            · exact le_of_lt (lt_of_le_of_lt (hmax q h hacc) (hbestval ▸ hx.2))
            · rw [List.mem_singleton.mp h]
        · have hkeep : flatStep crystal frequency s x = s := by
            unfold flatStep; rw [if_neg hx]
          rw [hkeep]
          refine Or.inr ⟨L₁, q₀, L₂ ++ [x], by rw [hL]; simp, hacc₀, hrec, hstrict, ?_⟩
          intro q hq hacc
          rcases List.mem_append.mp hq with h | h
          · exact hmax q h hacc
          · rw [List.mem_singleton.mp h] at hacc ⊢
            by_contra hlt
            rw [hbestval] at hx
            exact hx ⟨hacc, by omega⟩

/-! ### Structure of the candidate list -/

theorem mem_combos {q : Combo} :
    q ∈ combos ↔
      1 ≤ q.d2 ∧ q.d2 ≤ 16 ∧ 8 ≤ q.m2 ∧ q.m2 ≤ 20 ∧
      1 ≤ q.d1 ∧ q.d1 ≤ 16 ∧ 4 ≤ q.m1 ∧ q.m1 ≤ 10 := by
  obtain ⟨d2, m2, d1, m1⟩ := q
  simp only [combos, div2List, mul2List, div1List, mul1List, List.mem_flatMap,
    List.mem_map, List.mem_range', Combo.mk.injEq]
  constructor
  · rintro ⟨a, ⟨i, hi, rfl⟩, b, ⟨j, hj, rfl⟩, c, ⟨k, hk, rfl⟩, m, ⟨⟨n, hn, rfl⟩, h1, h2, h3, h4⟩⟩
    omega
  · rintro ⟨h1, h2, h3, h4, h5, h6, h7, h8⟩
    exact ⟨d2, ⟨d2 - 1, by omega⟩, m2, ⟨m2 - 8, by omega⟩, d1, ⟨d1 - 1, by omega⟩,
      m1, ⟨m1 - 4, by omega⟩, rfl, rfl, rfl, rfl⟩

theorem pairwise_lt_range1 (s n : Nat) : (List.range' s n).Pairwise (· < ·) := by
  induction n generalizing s with
  | zero => exact List.Pairwise.nil
  | succ n ih =>
      rw [List.range'_succ]
      refine List.pairwise_cons.mpr ⟨?_, ih (s + 1)⟩
      intro a ha
      rcases List.mem_range'.mp ha with ⟨i, _, rfl⟩
      omega

theorem combos_sorted : combos.Pairwise lexLT := by
  unfold combos
  rw [List.pairwise_flatMap]
  constructor
  · intro d2 _
    rw [List.pairwise_flatMap]
    constructor
    · intro m2 _
      rw [List.pairwise_flatMap]
      constructor
      · intro d1 _
        rw [List.pairwise_map]
        refine List.Pairwise.imp ?_ (pairwise_lt_range1 4 7)
        intro a b hab
        exact Or.inr ⟨rfl, Or.inr ⟨rfl, Or.inr ⟨rfl, hab⟩⟩⟩
      · refine List.Pairwise.imp ?_ (pairwise_lt_range1 1 16)
        intro a b hab x hx y hy
        rcases List.mem_map.mp hx with ⟨_, _, rfl⟩
        rcases List.mem_map.mp hy with ⟨_, _, rfl⟩
        exact Or.inr ⟨rfl, Or.inr ⟨rfl, Or.inl hab⟩⟩
    · refine List.Pairwise.imp ?_ (pairwise_lt_range1 8 13)
      intro a b hab x hx y hy
      rcases List.mem_flatMap.mp hx with ⟨_, _, hx'⟩
      rcases List.mem_map.mp hx' with ⟨_, _, rfl⟩
      rcases List.mem_flatMap.mp hy with ⟨_, _, hy'⟩
      rcases List.mem_map.mp hy' with ⟨_, _, rfl⟩
      exact Or.inr ⟨rfl, Or.inl hab⟩
  · refine List.Pairwise.imp ?_ (pairwise_lt_range1 1 16)
    intro a b hab x hx y hy
    rcases List.mem_flatMap.mp hx with ⟨_, _, hx'⟩
    rcases List.mem_flatMap.mp hx' with ⟨_, _, hx''⟩
    rcases List.mem_map.mp hx'' with ⟨_, _, rfl⟩
    rcases List.mem_flatMap.mp hy with ⟨_, _, hy'⟩
    rcases List.mem_flatMap.mp hy' with ⟨_, _, hy''⟩
    rcases List.mem_map.mp hy'' with ⟨_, _, rfl⟩
    exact Or.inl hab

/-! ### Absence of `uint32_t` overflow on feasible inputs -/

theorem crystal_bound {crystal frequency : Nat}
    (h : ∃ q, feasibleSpec crystal frequency q) : crystal ≤ 144000015 := by
  obtain ⟨q, h1, h2, hm2, _, _, _, _, hp2hi, _, _⟩ := h
  have hm2' : 8 ≤ q.m2 := by
    simp only [List.mem_cons, List.not_mem_nil, or_false] at hm2
    omega
  have hd : crystal / 16 ≤ crystal / q.d2 := Nat.div_le_div_left h2 (by omega)
  have key : crystal / 16 * 8 ≤ pll2Exact crystal q := by
    unfold pll2Exact
    calc crystal / 16 * 8 ≤ crystal / q.d2 * 8 := Nat.mul_le_mul_right 8 hd
    _ ≤ crystal / q.d2 * q.m2 := Nat.mul_le_mul_left _ hm2'
  have := le_trans key hp2hi
  omega

theorem pll2_nowrap {crystal : Nat} (hc : crystal ≤ 144000015) {q : Combo}
    (hm : q.m2 ≤ 20) : pll2Of crystal q = pll2Exact crystal q := by
  unfold pll2Of pll2Exact u32
  apply Nat.mod_eq_of_lt
  have h1 : crystal / q.d2 ≤ crystal := Nat.div_le_self _ _
  have : crystal / q.d2 * q.m2 ≤ 144000015 * 20 :=
    Nat.mul_le_mul (le_trans h1 hc) hm
  omega

theorem pll1_nowrap {crystal : Nat} {q : Combo} (hm1 : q.m1 ≤ 10)
    (heq : pll2Of crystal q = pll2Exact crystal q)
    (hp2 : pll2Of crystal q ≤ 72000000) :
    pll1C crystal q = pll1Exact crystal q := by
  unfold pll1C pll1Exact pll1Of
  rw [← heq]
  have hd : pll2Of crystal q / q.d1 ≤ 72000000 :=
    le_trans (Nat.div_le_self _ _) hp2
  by_cases h10 : q.m1 ≠ 10
  · rw [if_pos h10, if_pos h10]
    unfold u32
    apply Nat.mod_eq_of_lt
    have : pll2Of crystal q / q.d1 * q.m1 ≤ 72000000 * 10 := Nat.mul_le_mul hd hm1
    omega
  · rw [if_neg h10, if_neg h10]
    unfold u32
    congr 1
    apply Nat.mod_eq_of_lt
    have : pll2Of crystal q / q.d1 * 13 ≤ 72000000 * 13 :=
      Nat.mul_le_mul_right 13 hd
    omega

/-! ### Bridges between the code's filter and the reference feasibility -/

theorem feasible_mem_combos {crystal frequency : Nat} {q : Combo}
    (h : feasibleSpec crystal frequency q) : q ∈ combos := by
  obtain ⟨h1, h2, hm2, h3, h4, hm1, _⟩ := h
  simp only [List.mem_cons, List.not_mem_nil, or_false] at hm2 hm1
  exact mem_combos.mpr ⟨h1, h2, by omega, by omega, h3, h4, by omega, by omega⟩

theorem feasible_accepts {crystal frequency : Nat} {q : Combo}
    (hc : crystal ≤ 144000015) (h : feasibleSpec crystal frequency q) :
    accepts crystal frequency q ∧ pll1C crystal q = pll1Exact crystal q := by
  obtain ⟨h1, h2, hm2, h3, h4, hm1, hp2lo, hp2hi, hp1lo, hp1hi⟩ := h
  simp only [List.mem_cons, List.not_mem_nil, or_false] at hm2 hm1
  have heq : pll2Of crystal q = pll2Exact crystal q := pll2_nowrap hc (by omega)
  have heq1 : pll1C crystal q = pll1Exact crystal q :=
    pll1_nowrap (by omega) heq (by omega)
  refine ⟨⟨by omega, by omega, by omega, ?_, ?_⟩, heq1⟩
  · rw [heq1]; omega
  · rw [heq1]; omega

theorem accepts_val_exact {crystal frequency : Nat} {q : Combo}
    (hc : crystal ≤ 144000015) (hq : q ∈ combos)
    (h : accepts crystal frequency q) : pll1C crystal q = pll1Exact crystal q := by
  obtain ⟨_, _, _, hm2hi, _, _, _, hm1hi⟩ := mem_combos.mp hq
  exact pll1_nowrap hm1hi (pll2_nowrap hc hm2hi) h.2.2.1

theorem accepts_feasible {crystal frequency : Nat} {q : Combo}
    (hc : crystal ≤ 144000015) (hq : q ∈ combos)
    (h : accepts crystal frequency q) (hgt : 18000000 < pll1C crystal q) :
    feasibleSpec crystal frequency q := by
  obtain ⟨h1, h2, h3, hm2hi, h5, h6, h7, hm1hi⟩ := mem_combos.mp hq
  obtain ⟨hbad, hp2lo, hp2hi, hp1lo, hp1hi⟩ := h
  have heq : pll2Of crystal q = pll2Exact crystal q := pll2_nowrap hc hm2hi
  have heq1 : pll1C crystal q = pll1Exact crystal q :=
    pll1_nowrap hm1hi heq hp2hi
  refine ⟨h1, h2, ?_, h5, h6, ?_, by omega, by omega, by omega, by omega⟩
  · simp only [List.mem_cons, List.not_mem_nil, or_false]
    omega
  · simp only [List.mem_cons, List.not_mem_nil, or_false]
    omega

/-! ### Derived facts about the search result -/

theorem pllSearch_of_none {crystal frequency : Nat}
    (h : ∀ q ∈ combos, ¬ accepts crystal frequency q) :
    pllSearch crystal frequency = ⟨0, 0, 0, 0, 0⟩ := by
  rw [pllSearch_eq_flat]
  rcases search_inv crystal frequency combos with ⟨_, hz⟩ | ⟨L₁, q₀, L₂, hL, hacc₀, _, _, _⟩
  · exact hz
  · have hmem : q₀ ∈ combos := by
      rw [hL]; exact List.mem_append_right _ (List.mem_cons_self _ _)
    exact absurd hacc₀ (h q₀ hmem)

theorem pllSearch_of_some {crystal frequency : Nat}
    (h : ∃ q ∈ combos, accepts crystal frequency q) :
    ∃ q₀, q₀ ∈ combos ∧ accepts crystal frequency q₀ ∧
      pllSearch crystal frequency = record crystal q₀ ∧
      (∀ q ∈ combos, accepts crystal frequency q → pll1C crystal q ≤ pll1C crystal q₀) ∧
      (∀ q ∈ combos, accepts crystal frequency q →
        pll1C crystal q = pll1C crystal q₀ → lexLE q₀ q) := by
  rw [pllSearch_eq_flat]
  rcases search_inv crystal frequency combos with ⟨hnone, _⟩ |
    ⟨L₁, q₀, L₂, hL, hacc₀, hrec, hstrict, hmax⟩
  · obtain ⟨q, hq, hacc⟩ := h
    exact absurd hacc (hnone q hq)
  · have hmem : q₀ ∈ combos := by
      rw [hL]; exact List.mem_append_right _ (List.mem_cons_self _ _)
    refine ⟨q₀, hmem, hacc₀, hrec, hmax, ?_⟩
    intro q hq hacc heqv
    have hsorted := combos_sorted
    rw [hL] at hsorted hq
    rcases List.mem_append.mp hq with hqL₁ | hqR
    · exact absurd heqv (ne_of_lt (hstrict q hqL₁ hacc))
    · rcases List.mem_cons.mp hqR with rfl | hqL₂
      · exact Or.inr rfl
      · have hp := (List.pairwise_append.mp hsorted).2.1
        exact Or.inl (List.rel_of_pairwise_cons hp hqL₂)

/-! ### Small helper facts -/

theorem accepts_zero (frequency : Nat) (q : Combo) : ¬ accepts 0 frequency q := by
  rintro ⟨_, h2, _⟩
  simp [pll2Of, u32, Nat.zero_div] at h2

theorem cfgrOrMask_ne_swpll (s : PllState) : cfgrOrMask s ≠ RCC_CFGR_SW_PLL := by
  intro h
  have hbit := congrArg (fun n => n.testBit 10) h
  simp only [cfgrOrMask, Nat.testBit_or] at hbit
  have h1 : RCC_CFGR_PPRE1_DIV2.testBit 10 = true := by decide
  have h2 : RCC_CFGR_SW_PLL.testBit 10 = false := by decide
  rw [h1, h2, Bool.or_true] at hbit
  exact Bool.true_eq_false.mp hbit

/-- The search at crystal 18 MHz, target 18 MHz achieves exactly 18 MHz
(derived from the fold characterisation, without evaluating the search). -/
theorem pll_start_18M : pll_start_frequency 18000000 18000000 = 18000000 := by
  obtain ⟨q₀, hmem, hacc, hrec, hmax, _⟩ :=
    @pllSearch_of_some 18000000 18000000
      ⟨⟨2, 8, 16, 4⟩, mem_combos.mpr (by decide), by decide⟩
  have h1 : pll1C 18000000 ⟨2, 8, 16, 4⟩ = 18000000 := by decide
  have h2 := hmax ⟨2, 8, 16, 4⟩ (mem_combos.mpr (by decide)) (by decide)
  have h3 := accepts_upper hacc
  unfold pll_start_frequency
  rw [hrec]
  show pll1C 18000000 q₀ = 18000000
  omega

/-! ### Claim C1 -/

/-- Claim C1: for every positive crystal and target frequency for which some
combination (div2 in [1,16], mul2 in the valid multiplier set, div1 in
[1,16], mul1 in the loop-value set with 10 standing for 6.5) satisfies both
PLL range constraints under the exact truncating integer formulas, the value
returned by `pll_start` equals the maximum PLL1 value reachable over all
such feasible combinations, and that value is at most the target. -/
theorem pll_start_returns_reference_maximum (crystal frequency : Nat)
    (hc : 0 < crystal) (hf : 0 < frequency)
    (hfeas : ∃ q, feasibleSpec crystal frequency q) :
    pll_start_frequency crystal frequency = bestExact crystal frequency ∧
    pll_start_frequency crystal frequency ≤ frequency := by
  obtain ⟨qw, hqw⟩ := hfeas
  have hcb : crystal ≤ 144000015 := crystal_bound ⟨qw, hqw⟩
  have hqw_mem := feasible_mem_combos hqw
  obtain ⟨hqw_acc, hqw_val⟩ := feasible_accepts hcb hqw
  obtain ⟨q₀, hq₀mem, hq₀acc, hq₀rec, hq₀max, _⟩ :=
    pllSearch_of_some ⟨qw, hqw_mem, hqw_acc⟩
  have hbest : pll_start_frequency crystal frequency = pll1C crystal q₀ := by
    unfold pll_start_frequency
    rw [hq₀rec]
    rfl
  obtain ⟨_, _, _, _, _, _, _, _, hqw18, _⟩ := hqw
  have hgt : 18000000 < pll1C crystal q₀ := by
    have := hq₀max qw hqw_mem hqw_acc
    omega
  have hq₀feas : feasibleSpec crystal frequency q₀ :=
    accepts_feasible hcb hq₀mem hq₀acc hgt
  have hq₀val : pll1C crystal q₀ = pll1Exact crystal q₀ :=
    accepts_val_exact hcb hq₀mem hq₀acc
  have hle : bestExact crystal frequency ≤ pll1C crystal q₀ := by
    unfold bestExact
    refine foldl_max_le ?_ (Nat.zero_le _)
    intro a ha
    rcases List.mem_map.mp ha with ⟨q, hqf, rfl⟩
    rcases List.mem_filter.mp hqf with ⟨hqc, hdec⟩
    have hqfeas : feasibleSpec crystal frequency q := of_decide_eq_true hdec
    obtain ⟨hacc, hval⟩ := feasible_accepts hcb hqfeas
    rw [← hval]
    exact hq₀max q hqc hacc
  have hge : pll1C crystal q₀ ≤ bestExact crystal frequency := by
    rw [hq₀val]
    unfold bestExact
    apply le_foldl_max_of_mem
    exact List.mem_map.mpr
      ⟨q₀, List.mem_filter.mpr ⟨hq₀mem, decide_eq_true hq₀feas⟩, rfl⟩
  exact ⟨by omega, by rw [hbest]; exact accepts_upper hq₀acc⟩

/-- Witness for C1 at the spec's concrete scenario 1:
crystal 25 MHz, target 72 MHz (tuple (div2 5, mul2 8, div1 5, mul1 9)). -/
theorem pll_start_returns_reference_maximum_witness :
    pll_start_frequency 25000000 72000000 = bestExact 25000000 72000000 ∧
    pll_start_frequency 25000000 72000000 ≤ 72000000 :=
  pll_start_returns_reference_maximum 25000000 72000000 (by decide) (by decide)
    ⟨⟨5, 8, 5, 9⟩, by decide⟩

/-! ### Claim C2 (corrected: the lower bound is inclusive, not strict) -/

/-- Counterexample to C2 as stated: at crystal 18 MHz, target 18 MHz the
search accepts the tuple (div2 2, mul2 8, div1 16, mul1 4) whose PLL1
output is exactly 18 MHz (not strictly above), and the nonzero returned
frequency is exactly 18 MHz, outside the open-closed interval
(18 MHz, 18 MHz]. -/
theorem pll_accepts_exactly_18MHz :
    accepts 18000000 18000000 ⟨2, 8, 16, 4⟩ ∧
    pll1C 18000000 ⟨2, 8, 16, 4⟩ = 18000000 ∧
    pll_start_frequency 18000000 18000000 = 18000000 ∧
    ¬ 18000000 < pll_start_frequency 18000000 18000000 :=
  ⟨by decide, by decide, pll_start_18M, by rw [pll_start_18M]; omega⟩

/-- Claim C2 amended: every candidate accepted by the search has PLL1
output at least 18 MHz (inclusive) and at most the target, so a nonzero
returned frequency lies in the closed interval [18 MHz, targetHz]. -/
theorem pll_accepted_frequency_bounds (crystal frequency : Nat) :
    (∀ q, accepts crystal frequency q →
      18000000 ≤ pll1C crystal q ∧ pll1C crystal q ≤ frequency) ∧
    (pll_start_frequency crystal frequency ≠ 0 →
      18000000 ≤ pll_start_frequency crystal frequency ∧
      pll_start_frequency crystal frequency ≤ frequency) := by
  refine ⟨fun q h => ⟨accepts_lower h, accepts_upper h⟩, ?_⟩
  intro hne
  by_cases hex : ∃ q ∈ combos, accepts crystal frequency q
  · obtain ⟨q₀, _, hacc₀, hrec, _, _⟩ := pllSearch_of_some hex
    unfold pll_start_frequency
    rw [hrec]
    exact ⟨accepts_lower hacc₀, accepts_upper hacc₀⟩
  · exfalso
    apply hne
    unfold pll_start_frequency
    rw [pllSearch_of_none fun q hq hacc => hex ⟨q, hq, hacc⟩]

/-- Witness for the amended C2 at crystal 18 MHz, target 18 MHz. -/
theorem pll_accepted_frequency_bounds_witness :
    18000000 ≤ pll_start_frequency 18000000 18000000 ∧
    pll_start_frequency 18000000 18000000 ≤ 18000000 :=
  (pll_accepted_frequency_bounds 18000000 18000000).2
    (by rw [pll_start_18M]; omega)

/-! ### Claim C3 -/

/-- Claim C3: a later tuple replaces the stored one only when its frequency
is strictly larger, so the search returns the first accepted maximiser in
the iteration order div2, mul2, div1, mul1 ascending: the returned tuple is
lexicographically least among all accepted tuples achieving the maximal
PLL1 frequency. -/
theorem pll_search_first_found_wins (crystal frequency : Nat)
    (h : ∃ q ∈ combos, accepts crystal frequency q) :
    ∃ q₀, q₀ ∈ combos ∧ accepts crystal frequency q₀ ∧
      pllSearch crystal frequency =
        ⟨pll1C crystal q₀, q₀.d2, q₀.m2, q₀.d1, q₀.m1⟩ ∧
      (∀ q ∈ combos, accepts crystal frequency q →
        pll1C crystal q ≤ pll1C crystal q₀) ∧
      (∀ q ∈ combos, accepts crystal frequency q →
        pll1C crystal q = pll1C crystal q₀ → lexLE q₀ q) :=
  pllSearch_of_some h

/-- Witness for C3 at crystal 18 MHz, target 18 MHz (an input with several
accepted tuples tied at the maximal frequency 18 MHz). -/
theorem pll_search_first_found_wins_witness :
    ∃ q₀, q₀ ∈ combos ∧ accepts 18000000 18000000 q₀ ∧
      pllSearch 18000000 18000000 =
        ⟨pll1C 18000000 q₀, q₀.d2, q₀.m2, q₀.d1, q₀.m1⟩ ∧
      (∀ q ∈ combos, accepts 18000000 18000000 q →
        pll1C 18000000 q ≤ pll1C 18000000 q₀) ∧
      (∀ q ∈ combos, accepts 18000000 18000000 q →
        pll1C 18000000 q = pll1C 18000000 q₀ → lexLE q₀ q) :=
  pll_search_first_found_wins 18000000 18000000
    ⟨⟨2, 8, 16, 4⟩, mem_combos.mpr (by decide), by decide⟩

/-! ### Claim C4 -/

/-- Claim C4: when no tuple passes both range filters, all five
accumulators stay at their zero start values, the returned achieved
frequency is 0, and the switch sequencer still performs the full
11-step sequence, programming the configuration registers with masks
derived from the all-zero state instead of reporting an error. -/
theorem pll_search_silent_failure (crystal frequency : Nat)
    (h : ∀ q ∈ combos, ¬ accepts crystal frequency q) :
    pllSearch crystal frequency = ⟨0, 0, 0, 0, 0⟩ ∧
    pll_start_frequency crystal frequency = 0 ∧
    (pllStartTrace crystal frequency).get? 2 =
      some (ClockEvent.orCFGR2 (cfgr2OrMask ⟨0, 0, 0, 0, 0⟩)) ∧
    (pllStartTrace crystal frequency).get? 5 =
      some (ClockEvent.orCFGR (cfgrOrMask ⟨0, 0, 0, 0, 0⟩)) ∧
    (pllStartTrace crystal frequency).length = 11 := by
  have hz := pllSearch_of_none h
  refine ⟨hz, ?_, ?_, ?_, rfl⟩
  · unfold pll_start_frequency
    rw [hz]
  · show some (ClockEvent.orCFGR2 (cfgr2OrMask (pllSearch crystal frequency))) = _
    rw [hz]
  · show some (ClockEvent.orCFGR (cfgrOrMask (pllSearch crystal frequency))) = _
    rw [hz]

/-- Witness for C4 at crystal 0, target 0 (no tuple is ever accepted since
every PLL2 output is 0). -/
theorem pll_search_silent_failure_witness :
    pllSearch 0 0 = ⟨0, 0, 0, 0, 0⟩ ∧
    pll_start_frequency 0 0 = 0 ∧
    (pllStartTrace 0 0).get? 2 =
      some (ClockEvent.orCFGR2 (cfgr2OrMask ⟨0, 0, 0, 0, 0⟩)) ∧
    (pllStartTrace 0 0).get? 5 =
      some (ClockEvent.orCFGR (cfgrOrMask ⟨0, 0, 0, 0, 0⟩)) ∧
    (pllStartTrace 0 0).length = 11 :=
  pll_search_silent_failure 0 0 (fun q _ => accepts_zero 0 q)

/-! ### Claim C5 -/

/-- Claim C5: the flash wait-state value computed by `flash_latency` is a
pure, boundary-exact step function of the target frequency: 0 below
24 MHz, 1 on [24 MHz, 48 MHz), 2 from 48 MHz on. -/
theorem flash_latency_step_function (frequency : Nat) :
    (frequency < 24000000 → flashWaitStates frequency = 0) ∧
    (24000000 ≤ frequency → frequency < 48000000 → flashWaitStates frequency = 1) ∧
    (48000000 ≤ frequency → flashWaitStates frequency = 2) := by
  unfold flashWaitStates
  refine ⟨fun h => ?_, fun h1 h2 => ?_, fun h => ?_⟩ <;> split_ifs <;> omega

/-- Witness for C5 at the three boundary-adjacent points. -/
theorem flash_latency_step_function_witness :
    flashWaitStates 23999999 = 0 ∧ flashWaitStates 24000000 = 1 ∧
    flashWaitStates 47999999 = 1 ∧ flashWaitStates 48000000 = 2 :=
  ⟨(flash_latency_step_function 23999999).1 (by omega),
   (flash_latency_step_function 24000000).2.1 (by omega) (by omega),
   (flash_latency_step_function 47999999).2.1 (by omega) (by omega),
   (flash_latency_step_function 48000000).2.2 (by omega)⟩

/-! ### Claim C8 -/

/-- Claim C8: for any input with a feasible combination, the selected
`mul2` is never one of the forbidden values 15, 17, 18, 19 (it lies in
the valid set), and the selected `mul1` has an effective ratio in
the set 4, 5, 6, 6.5, 7, 8, 9 (expressed here as twice the ratio, with
the loop value 10 standing for 6.5). -/
theorem pll_selected_multiplier_sets (crystal frequency : Nat)
    (h : ∃ q ∈ combos, accepts crystal frequency q) :
    (pllSearch crystal frequency).best_mul2 ∈
      ([8, 9, 10, 11, 12, 13, 14, 16, 20] : List Nat) ∧
    (if (pllSearch crystal frequency).best_mul1 = 10 then 13
     else 2 * (pllSearch crystal frequency).best_mul1) ∈
      ([8, 10, 12, 13, 14, 16, 18] : List Nat) := by
  obtain ⟨q₀, hmem, hacc, hrec, _, _⟩ := pllSearch_of_some h
  obtain ⟨_, _, hm2lo, hm2hi, _, _, hm1lo, hm1hi⟩ := mem_combos.mp hmem
  have hbad := hacc.1
  rw [hrec]
  show q₀.m2 ∈ _ ∧ (if q₀.m1 = 10 then 13 else 2 * q₀.m1) ∈ _
  constructor
  · simp only [List.mem_cons, List.not_mem_nil, or_false]
    omega
  · by_cases h10 : q₀.m1 = 10
    · rw [if_pos h10]
      simp
    · rw [if_neg h10]
      simp only [List.mem_cons, List.not_mem_nil, or_false]
      omega

/-- Witness for C8 at crystal 18 MHz, target 18 MHz. -/
theorem pll_selected_multiplier_sets_witness :
    (pllSearch 18000000 18000000).best_mul2 ∈
      ([8, 9, 10, 11, 12, 13, 14, 16, 20] : List Nat) ∧
    (if (pllSearch 18000000 18000000).best_mul1 = 10 then 13
     else 2 * (pllSearch 18000000 18000000).best_mul1) ∈
      ([8, 10, 12, 13, 14, 16, 18] : List Nat) :=
  pll_selected_multiplier_sets 18000000 18000000
    ⟨⟨2, 8, 16, 4⟩, mem_combos.mpr (by decide), by decide⟩

/-! ### Claim C10 -/

/-- Claim C10: on the silent-failure path (no accepted tuple, so all
accumulators are 0) the `uint32_t` encoding arithmetic wraps modulo 2^32:
`best_mul2 -= 2` yields 4294967294, `best_div2 -= 1` and `best_div1 -= 1`
yield 4294967295 each, and the OR-masks written to the clock-configuration
registers are derived from these wrapped values (the CFGR2 mask becomes
0xFFFFFFFF, not the PREDIV1SRC-only mask that zero fields would give). -/
theorem pll_failure_wrapped_encoding (crystal frequency : Nat)
    (h : ∀ q ∈ combos, ¬ accepts crystal frequency q) :
    encodePll2Mul (pllSearch crystal frequency).best_mul2 = 4294967294 ∧
    encodePrediv (pllSearch crystal frequency).best_div2 = 4294967295 ∧
    encodePrediv (pllSearch crystal frequency).best_div1 = 4294967295 ∧
    (pllStartTrace crystal frequency).get? 2 =
      some (ClockEvent.orCFGR2 4294967295) ∧
    (pllStartTrace crystal frequency).get? 5 =
      some (ClockEvent.orCFGR 4294509568) ∧
    cfgr2OrMask (pllSearch crystal frequency) ≠ RCC_CFGR2_PREDIV1SRC := by
  have hz := pllSearch_of_none h
  rw [hz]
  have hm2 : cfgr2OrMask (⟨0, 0, 0, 0, 0⟩ : PllState) = 4294967295 := by decide
  have hm1 : cfgrOrMask (⟨0, 0, 0, 0, 0⟩ : PllState) = 4294509568 := by decide
  refine ⟨by decide, by decide, by decide, ?_, ?_, ?_⟩
  · show some (ClockEvent.orCFGR2 (cfgr2OrMask (pllSearch crystal frequency))) = _
    rw [hz, hm2]
  · show some (ClockEvent.orCFGR (cfgrOrMask (pllSearch crystal frequency))) = _
    rw [hz, hm1]
  · rw [hm2]
    decide

/-- Witness for C10 at crystal 0, target 0. -/
theorem pll_failure_wrapped_encoding_witness :
    encodePll2Mul (pllSearch 0 0).best_mul2 = 4294967294 ∧
    encodePrediv (pllSearch 0 0).best_div2 = 4294967295 ∧
    encodePrediv (pllSearch 0 0).best_div1 = 4294967295 ∧
    (pllStartTrace 0 0).get? 2 = some (ClockEvent.orCFGR2 4294967295) ∧
    (pllStartTrace 0 0).get? 5 = some (ClockEvent.orCFGR 4294509568) ∧
    cfgr2OrMask (pllSearch 0 0) ≠ RCC_CFGR2_PREDIV1SRC :=
  pll_failure_wrapped_encoding 0 0 (fun q _ => accepts_zero 0 q)

/-! ### Claim C6 -/

/-- Claim C6: in every trace of `pll_start`, the PLL2-lock wait completes
before the PLL1 enable bit is set, the PLL1-lock wait completes before the
system-clock-source switch to PLL is requested, and the sequence ends with
the poll of the switch-confirmed `SWS` field (mask 12, bits 2-3), which is
a different register field from the switch-requested `SW` field (mask 3). -/
theorem pll_lock_and_switch_ordering (crystal frequency : Nat) :
    precededBy (pllStartTrace crystal frequency)
      ClockEvent.waitPLL2RDY ClockEvent.setPLLON ∧
    precededBy (pllStartTrace crystal frequency)
      ClockEvent.waitPLLRDY (ClockEvent.orCFGR RCC_CFGR_SW_PLL) ∧
    (pllStartTrace crystal frequency).getLast? =
      some (ClockEvent.waitCFGRField RCC_CFGR_SWS RCC_CFGR_SWS_PLL) ∧
    RCC_CFGR_SWS ≠ RCC_CFGR_SW := by
  refine ⟨?_, ?_, rfl, by decide⟩
  · intro j hj
    rcases j with _ | _ | _ | _ | _ | _ | _ | _ | _ | _ | _ | j <;>
      simp only [pllStartTrace, List.get?, Option.some.injEq] at hj <;>
      first
        | exact Option.noConfusion hj
        | exact ClockEvent.noConfusion hj
        | exact ⟨6, by omega, rfl⟩
  · intro j hj
    rcases j with _ | _ | _ | _ | _ | _ | _ | _ | _ | _ | _ | j <;>
      simp only [pllStartTrace, List.get?, Option.some.injEq] at hj <;>
      first
        | exact Option.noConfusion hj
        | exact ClockEvent.noConfusion hj
        | exact absurd (ClockEvent.orCFGR.inj hj) (cfgrOrMask_ne_swpll _)
        | exact ⟨8, by omega, rfl⟩

/-- Witness for C6 at crystal 12 MHz, target 72 MHz. -/
theorem pll_lock_and_switch_ordering_witness :
    precededBy (pllStartTrace 12000000 72000000)
      ClockEvent.waitPLL2RDY ClockEvent.setPLLON ∧
    precededBy (pllStartTrace 12000000 72000000)
      ClockEvent.waitPLLRDY (ClockEvent.orCFGR RCC_CFGR_SW_PLL) ∧
    (pllStartTrace 12000000 72000000).getLast? =
      some (ClockEvent.waitCFGRField RCC_CFGR_SWS RCC_CFGR_SWS_PLL) ∧
    RCC_CFGR_SWS ≠ RCC_CFGR_SW :=
  pll_lock_and_switch_ordering 12000000 72000000

/-! ### Claim C7 (corrected: HSEON is set before the flash-latency write) -/

/-- Counterexample to C7 as stated: in the trace at crystal 12 MHz, target
72 MHz, the very first event is the HSEON oscillator-enable (source line
818), so it cannot be preceded by the flash wait-state write, which only
happens second (source line 819). -/
theorem flash_write_after_hseon :
    ¬ flashBeforeEnables (pllStartTrace 12000000 72000000) := by
  intro h
  obtain ⟨i, e', hi, _, _⟩ := h 0 ClockEvent.setHSEON rfl trivial
  exact absurd hi (Nat.not_lt_zero i)

/-- Claim C7 amended: the flash wait-state write happens before the
PLL2-enable and PLL1-enable steps (and before every poll), but after the
oscillator-enable bit HSEON, which the code sets first; HSEON at index 0,
the flash write at index 1. -/
theorem flash_write_before_pll_enables (crystal frequency : Nat) :
    (pllStartTrace crystal frequency).get? 0 = some ClockEvent.setHSEON ∧
    (pllStartTrace crystal frequency).get? 1 =
      some (ClockEvent.writeACR (flashWaitStates frequency)) ∧
    (∀ j, (pllStartTrace crystal frequency).get? j = some ClockEvent.setPLL2ON →
      ∃ i e', i < j ∧ (pllStartTrace crystal frequency).get? i = some e' ∧
        isFlashWrite e') ∧
    (∀ j, (pllStartTrace crystal frequency).get? j = some ClockEvent.setPLLON →
      ∃ i e', i < j ∧ (pllStartTrace crystal frequency).get? i = some e' ∧
        isFlashWrite e') := by
  refine ⟨rfl, rfl, ?_, ?_⟩ <;>
    · intro j hj
      rcases j with _ | _ | _ | _ | _ | _ | _ | _ | _ | _ | _ | j <;>
        simp only [pllStartTrace, List.get?, Option.some.injEq] at hj <;>
        first
          | exact Option.noConfusion hj
          | exact ClockEvent.noConfusion hj
          | exact ⟨1, ClockEvent.writeACR (flashWaitStates frequency),
              by omega, rfl, trivial⟩

/-- Witness for the amended C7: the PLL2-enable at index 4 of the trace at
crystal 12 MHz, target 72 MHz is preceded by a flash wait-state write. -/
theorem flash_write_before_pll_enables_witness :
    ∃ i e', i < 4 ∧ (pllStartTrace 12000000 72000000).get? i = some e' ∧
      isFlashWrite e' :=
  (flash_write_before_pll_enables 12000000 72000000).2.2.1 4 rfl

/-! ### Claim C9 -/

/-- Claim C9: the register-field encodings of a selected configuration:
dividers are stored as value minus 1; `mul2` as value minus 2 except that
20 maps to the reserved encoding `RCC_CFGR2_PLL2MUL20_value` = 15; `mul1`
as value minus 2 except that the 6.5 sentinel (loop value 10) maps to the
reserved encoding `RCC_CFGR_PLLMUL6_5_value` = 13; and the single `CFGR`
write that programs `mul1` also carries the PLL-source select
(`RCC_CFGR_PLLSRC`, the prescaled PLL2 path) and the APB1 prescaler /2
(`RCC_CFGR_PPRE1_DIV2`) bits. -/
theorem pll_register_encodings (crystal frequency : Nat) :
    (∀ d, 1 ≤ d → d ≤ 16 → encodePrediv d = d - 1) ∧
    (∀ m, 8 ≤ m → m ≤ 16 → encodePll2Mul m = m - 2) ∧
    encodePll2Mul 20 = RCC_CFGR2_PLL2MUL20_value ∧
    RCC_CFGR2_PLL2MUL20_value = 15 ∧
    (∀ m, 4 ≤ m → m ≤ 9 → encodePllMul m = m - 2) ∧
    encodePllMul 10 = RCC_CFGR_PLLMUL6_5_value ∧
    RCC_CFGR_PLLMUL6_5_value = 13 ∧
    (pllStartTrace crystal frequency).get? 5 =
      some (ClockEvent.orCFGR (cfgrOrMask (pllSearch crystal frequency))) ∧
    cfgrOrMask (pllSearch crystal frequency) ||| RCC_CFGR_PLLSRC =
      cfgrOrMask (pllSearch crystal frequency) ∧
    cfgrOrMask (pllSearch crystal frequency) ||| RCC_CFGR_PPRE1_DIV2 =
      cfgrOrMask (pllSearch crystal frequency) := by
  refine ⟨?_, ?_, by decide, by decide, ?_, by decide, by decide, rfl, ?_, ?_⟩
  · intro d h1 h2
    unfold encodePrediv sub32
    omega
  · intro m h1 h2
    unfold encodePll2Mul sub32
    rw [if_neg (by omega)]
    omega
  · intro m h1 h2
    unfold encodePllMul sub32
    rw [if_neg (by omega)]
    omega
  · apply Nat.eq_of_testBit_eq
    intro i
    simp only [cfgrOrMask, Nat.testBit_or]
    cases Nat.testBit (u32 (encodePllMul (pllSearch crystal frequency).best_mul1 <<<
        RCC_CFGR_PLLMUL_bit)) i <;>
      cases Nat.testBit RCC_CFGR_PLLSRC i <;>
      cases Nat.testBit RCC_CFGR_PPRE1_DIV2 i <;> rfl
  · apply Nat.eq_of_testBit_eq
    intro i
    simp only [cfgrOrMask, Nat.testBit_or]
    cases Nat.testBit (u32 (encodePllMul (pllSearch crystal frequency).best_mul1 <<<
        RCC_CFGR_PLLMUL_bit)) i <;>
      cases Nat.testBit RCC_CFGR_PLLSRC i <;>
      cases Nat.testBit RCC_CFGR_PPRE1_DIV2 i <;> rfl

/-- Witness for C9: the encodings at representative concrete values. -/
theorem pll_register_encodings_witness :
    encodePrediv 5 = 4 ∧ encodePll2Mul 9 = 7 ∧ encodePllMul 7 = 5 :=
  ⟨(pll_register_encodings 0 0).1 5 (by omega) (by omega),
   (pll_register_encodings 0 0).2.1 9 (by omega) (by omega),
   (pll_register_encodings 0 0).2.2.2.2.1 7 (by omega) (by omega)⟩
